import Mathlib

/-
Verification of the ELS API caller (package els): access keys, the request
signer (APISigner.Sign), the dispatcher (EDAPICaller.Do) and access-key
creation (APIHandler.CreateAccessKey).

Conventions of the shallow embedding:
  - Bytes are Nat values below 256; Go byte slices are List Nat.
  - Go time.Time instants are Int, counted in seconds since 0001-01-01T00:00:00Z
    (the Go zero time is the value 0); Go time.Duration values are Int seconds,
    so time.Minute is 60.
  - Go strings are ASCII in every use this development makes, so the byte
    conversion []byte(s) is the list of code points.
-/

namespace Els

/-! ## 32-bit machine arithmetic on Nat -/

/-- Truncation to 32 bits, the overflow behaviour of Go uint32 arithmetic. -/
def w32 (n : Nat) : Nat := n % 4294967296

/-- Rotate a 32-bit word left by s bits (0 < s < 32). -/
def rotl32 (x s : Nat) : Nat := w32 (x <<< s) ||| (x >>> (32 - s))

/-- Rotate a 32-bit word right by s bits (0 < s < 32). -/
def rotr32 (x s : Nat) : Nat := (x >>> s) ||| w32 (x <<< (32 - s))

/-- Bitwise complement of a 32-bit word. -/
def not32 (x : Nat) : Nat := 4294967295 ^^^ x

/-! ## Encoders: hex (encoding/hex) and standard base64 (encoding/base64) -/

/-- Lower-case hex digit for a value below 16. -/
def hexDigit (n : Nat) : Char :=
  if n < 10 then Char.ofNat (48 + n) else Char.ofNat (87 + n)

/-- Two hex digits of one byte. -/
def hexByte (b : Nat) : List Char := [hexDigit (b / 16), hexDigit (b % 16)]

/-- Embedding of Go's hex.EncodeToString. -/
def hexEncode (bs : List Nat) : String := String.mk ((bs.map hexByte).flatten)

/-- Character of the standard base64 alphabet for a value below 64. -/
def b64Char (n : Nat) : Char :=
  if n < 26 then Char.ofNat (65 + n)
  else if n < 52 then Char.ofNat (97 + (n - 26))
  else if n < 62 then Char.ofNat (48 + (n - 52))
  else if n = 62 then '+' else '/'

/-- Embedding of Go's base64.StdEncoding.EncodeToString (with padding). -/
def base64Encode : List Nat → String
  | [] => ""
  | [a] =>
    let v := a * 65536
    String.mk [b64Char (v >>> 18 &&& 63), b64Char (v >>> 12 &&& 63), '=', '=']
  | [a, b] =>
    let v := a * 65536 + b * 256
    String.mk [b64Char (v >>> 18 &&& 63), b64Char (v >>> 12 &&& 63),
               b64Char (v >>> 6 &&& 63), '=']
  | a :: b :: c :: rest =>
    let v := a * 65536 + b * 256 + c
    String.mk [b64Char (v >>> 18 &&& 63), b64Char (v >>> 12 &&& 63),
               b64Char (v >>> 6 &&& 63), b64Char (v &&& 63)] ++ base64Encode rest

/-- Bytes of an ASCII Go string, the embedding of []byte(s). -/
def strBytes (s : String) : List Nat := s.data.map Char.toNat

/-- One character list is an initial segment of another. -/
def listIsPfxOf : List Char → List Char → Bool
  | [], _ => true
  | _ :: _, [] => false
  | a :: as, b :: bs => a == b && listIsPfxOf as bs

/-- Embedding of Go's strings.HasPrefix(s, p). -/
def hasPfx (s p : String) : Bool := listIsPfxOf p.data s.data

/-! ## Helpers shared by the hash functions -/

/-- Split a byte list into 64-byte blocks; fuel bounds the recursion and any
value at least the number of blocks gives the same result. -/
def chunks64 : Nat → List Nat → List (List Nat)
  | 0, _ => []
  | _, [] => []
  | f + 1, l => l.take 64 :: chunks64 f (l.drop 64)

/-- Little-endian bytes of a value, width n bytes. -/
def leBytes : Nat → Nat → List Nat
  | 0, _ => []
  | n + 1, v => v % 256 :: leBytes n (v / 256)

/-- Big-endian bytes of a value, width n bytes. -/
def beBytes (n v : Nat) : List Nat := (leBytes n v).reverse

/-- Little-endian 32-bit words of a byte list. -/
def leWords : List Nat → List Nat
  | b0 :: b1 :: b2 :: b3 :: rest =>
    (b0 + 256 * b1 + 65536 * b2 + 16777216 * b3) :: leWords rest
  | _ => []

/-- Big-endian 32-bit words of a byte list. -/
def beWords : List Nat → List Nat
  | b0 :: b1 :: b2 :: b3 :: rest =>
    (16777216 * b0 + 65536 * b1 + 256 * b2 + b3) :: beWords rest
  | _ => []

/-! ## MD5 (crypto/md5, RFC 1321) -/

/-- The 64 MD5 sine-derived round constants. -/
def md5K : List Nat :=
  [3614090360, 3905402710, 606105819, 3250441966, 4118548399, 1200080426,
   2821735955, 4249261313, 1770035416, 2336552879, 4294925233, 2304563134,
   1804603682, 4254626195, 2792965006, 1236535329, 4129170786, 3225465664,
   643717713, 3921069994, 3593408605, 38016083, 3634488961, 3889429448,
   568446438, 3275163606, 4107603335, 1163531501, 2850285829, 4243563512,
   1735328473, 2368359562, 4294588738, 2272392833, 1839030562, 4259657740,
   2763975236, 1272893353, 4139469664, 3200236656, 681279174, 3936430074,
   3572445317, 76029189, 3654602809, 3873151461, 530742520, 3299628645,
   4096336452, 1126891415, 2878612391, 4237533241, 1700485571, 2399980690,
   4293915773, 2240044497, 1873313359, 4264355552, 2734768916, 1309151649,
   4149444226, 3174756917, 718787259, 3951481745]

/-- The 64 MD5 per-round left-rotation amounts. -/
def md5S : List Nat :=
  [7, 12, 17, 22, 7, 12, 17, 22, 7, 12, 17, 22, 7, 12, 17, 22,
   5, 9, 14, 20, 5, 9, 14, 20, 5, 9, 14, 20, 5, 9, 14, 20,
   4, 11, 16, 23, 4, 11, 16, 23, 4, 11, 16, 23, 4, 11, 16, 23,
   6, 10, 15, 21, 6, 10, 15, 21, 6, 10, 15, 21, 6, 10, 15, 21]

/-- The four MD5 word registers. -/
structure MD5State where
  a : Nat
  b : Nat
  c : Nat
  d : Nat

/-- MD5 initial register values. -/
def md5Init : MD5State := ⟨1732584193, 4023233417, 2562383102, 271733878⟩

/-- The MD5 nonlinear function of round i applied to registers b, c, d. -/
def md5F (i b c d : Nat) : Nat :=
  if i < 16 then (b &&& c) ||| (not32 b &&& d)
  else if i < 32 then (d &&& b) ||| (not32 d &&& c)
  else if i < 48 then b ^^^ c ^^^ d
  else c ^^^ (b ||| not32 d)

/-- One MD5 round over the 16 message words m. -/
def md5Round (m : List Nat) (st : MD5State) (i : Nat) : MD5State :=
  let f := md5F i st.b st.c st.d
  let g :=
    if i < 16 then i
    else if i < 32 then (5 * i + 1) % 16
    else if i < 48 then (3 * i + 5) % 16
    else (7 * i) % 16
  let x := w32 (f + st.a + md5K.getD i 0 + m.getD g 0)
  ⟨st.d, w32 (st.b + rotl32 x (md5S.getD i 0)), st.b, st.c⟩

/-- One MD5 compression of a 64-byte block. -/
def md5Compress (st : MD5State) (block : List Nat) : MD5State :=
  let m := leWords block
  let r := (List.range 64).foldl (md5Round m) st
  ⟨w32 (st.a + r.a), w32 (st.b + r.b), w32 (st.c + r.c), w32 (st.d + r.d)⟩

/-- MD5 padding: a 1 bit, zeros to 56 mod 64, then the bit length as 8
little-endian bytes. -/
def md5Pad (msg : List Nat) : List Nat :=
  let len := msg.length
  let zeros := (120 - (len + 1) % 64) % 64
  msg ++ [128] ++ List.replicate zeros 0 ++ leBytes 8 (8 * len)

/-- Embedding of Go's md5.Sum: the 16-byte MD5 digest of a byte list. -/
def md5 (msg : List Nat) : List Nat :=
  let padded := md5Pad msg
  let st := (chunks64 padded.length padded).foldl md5Compress md5Init
  leBytes 4 st.a ++ leBytes 4 st.b ++ leBytes 4 st.c ++ leBytes 4 st.d

/-! ## SHA-256 (crypto/sha256, FIPS 180-4) -/

/-- The 64 SHA-256 round constants. -/
def sha256K : List Nat :=
  [1116352408, 1899447441, 3049323471, 3921009573, 961987163, 1508970993,
   2453635748, 2870763221, 3624381080, 310598401, 607225278, 1426881987,
   1925078388, 2162078206, 2614888103, 3248222580, 3835390401, 4022224774,
   264347078, 604807628, 770255983, 1249150122, 1555081692, 1996064986,
   2554220882, 2821834349, 2952996808, 3210313671, 3336571891, 3584528711,
   113926993, 338241895, 666307205, 773529912, 1294757372, 1396182291,
   1695183700, 1986661051, 2177026350, 2456956037, 2730485921, 2820302411,
   3259730800, 3345764771, 3516065817, 3600352804, 4094571909, 275423344,
   430227734, 506948616, 659060556, 883997877, 958139571, 1322822218,
   1537002063, 1747873779, 1955562222, 2024104815, 2227730452, 2361852424,
   2428436474, 2756734187, 3204031479, 3329325298]

/-- The eight SHA-256 word registers. -/
structure SHAState where
  a : Nat
  b : Nat
  c : Nat
  d : Nat
  e : Nat
  f : Nat
  g : Nat
  h : Nat

/-- SHA-256 initial register values. -/
def sha256Init : SHAState :=
  ⟨1779033703, 3144134277, 1013904242, 2773480762,
   1359893119, 2600822924, 528734635, 1541459225⟩

/-- The SHA-256 message schedule of a 64-byte block: 64 words. -/
def sha256Schedule (block : List Nat) : Array Nat :=
  let w0 := (beWords block).toArray
  (List.range 48).foldl (fun w i =>
    let x15 := w.getD (i + 1) 0
    let x2 := w.getD (i + 14) 0
    let s0 := rotr32 x15 7 ^^^ rotr32 x15 18 ^^^ (x15 >>> 3)
    let s1 := rotr32 x2 17 ^^^ rotr32 x2 19 ^^^ (x2 >>> 10)
    w.push (w32 (w.getD i 0 + s0 + w.getD (i + 9) 0 + s1))) w0

/-- One SHA-256 round over the message schedule w. -/
def sha256Round (w : Array Nat) (st : SHAState) (i : Nat) : SHAState :=
  let s1 := rotr32 st.e 6 ^^^ rotr32 st.e 11 ^^^ rotr32 st.e 25
  let ch := (st.e &&& st.f) ^^^ (not32 st.e &&& st.g)
  let t1 := w32 (st.h + s1 + ch + sha256K.getD i 0 + w.getD i 0)
  let s0 := rotr32 st.a 2 ^^^ rotr32 st.a 13 ^^^ rotr32 st.a 22
  let mj := (st.a &&& st.b) ^^^ (st.a &&& st.c) ^^^ (st.b &&& st.c)
  let t2 := w32 (s0 + mj)
  ⟨w32 (t1 + t2), st.a, st.b, st.c, w32 (st.d + t1), st.e, st.f, st.g⟩

/-- One SHA-256 compression of a 64-byte block. -/
def sha256Compress (st : SHAState) (block : List Nat) : SHAState :=
  let w := sha256Schedule block
  let r := (List.range 64).foldl (sha256Round w) st
  ⟨w32 (st.a + r.a), w32 (st.b + r.b), w32 (st.c + r.c), w32 (st.d + r.d),
   w32 (st.e + r.e), w32 (st.f + r.f), w32 (st.g + r.g), w32 (st.h + r.h)⟩

/-- SHA-256 padding: a 1 bit, zeros to 56 mod 64, then the bit length as 8
big-endian bytes. -/
def sha256Pad (msg : List Nat) : List Nat :=
  let len := msg.length
  let zeros := (120 - (len + 1) % 64) % 64
  msg ++ [128] ++ List.replicate zeros 0 ++ beBytes 8 (8 * len)

/-- Embedding of Go's sha256.Sum256: the 32-byte SHA-256 digest of a byte
list. -/
def sha256 (msg : List Nat) : List Nat :=
  let padded := sha256Pad msg
  let st := (chunks64 padded.length padded).foldl sha256Compress sha256Init
  beBytes 4 st.a ++ beBytes 4 st.b ++ beBytes 4 st.c ++ beBytes 4 st.d ++
  beBytes 4 st.e ++ beBytes 4 st.f ++ beBytes 4 st.g ++ beBytes 4 st.h

/-- Embedding of Go's hmac.New(sha256.New, key) followed by Write and Sum:
HMAC-SHA256 with block size 64. -/
def hmacSha256 (key msg : List Nat) : List Nat :=
  let k0 := if 64 < key.length then sha256 key else key
  let kp := k0 ++ List.replicate (64 - k0.length) 0
  let ipad := kp.map (fun b => b ^^^ 54)
  let opad := kp.map (fun b => b ^^^ 92)
  sha256 (opad ++ sha256 (ipad ++ msg))

/-! ## UTC time formatting (time.Time.UTC().Format(time.RFC3339))

Instants are Int seconds since 0001-01-01T00:00:00Z, so the Go zero time
time.Time{} is the value 0. All instants this development formats are
nonnegative. -/

/-- Proleptic-Gregorian civil date (year, month, day) of a day count since
0001-01-01. -/
def civilFromDays (days : Int) : Int × Int × Int :=
  let z := days + 306
  let era := z / 146097
  let doe := z - era * 146097
  let yoe := (doe - doe / 1460 + doe / 36524 - doe / 146096) / 365
  let y := yoe + era * 400
  let doy := doe - (365 * yoe + yoe / 4 - yoe / 100)
  let mp := (5 * doy + 2) / 153
  let d := doy - (153 * mp + 2) / 5 + 1
  let m := mp + (if mp < 10 then 3 else -9)
  (y + (if m ≤ 2 then 1 else 0), m, d)

/-- Decimal digits of n padded on the left with zeros to width w. -/
def padNum (w n : Nat) : String :=
  let s := toString n
  String.mk (List.replicate (w - s.length) '0') ++ s

/-- Embedding of Go's t.UTC().Format(time.RFC3339) for a whole-second instant:
the string YYYY-MM-DDTHH:MM:SSZ. -/
def rfc3339UTC (t : Int) : String :=
  let days := t / 86400
  let secs := (t % 86400).toNat
  let c := civilFromDays days
  padNum 4 c.1.toNat ++ "-" ++ padNum 2 c.2.1.toNat ++ "-" ++ padNum 2 c.2.2.toNat ++
    "T" ++ padNum 2 (secs / 3600) ++ ":" ++ padNum 2 (secs % 3600 / 60) ++ ":" ++
    padNum 2 (secs % 60) ++ "Z"

/-! ## AccessKey (access_key.go) -/

/-- Embedding of els.AccessKey: the public id, the private secret, an optional
expiry instant (0, the Go zero time, when unset) and the owner's email. -/
structure AccessKey where
  id : String
  secretAccessKey : String
  expiryDate : Int
  email : String
deriving DecidableEq

/-- Embedding of AccessKey.CanSign: both the id and the secret are set. -/
def AccessKey.canSign (a : AccessKey) : Bool :=
  a.id != "" && a.secretAccessKey != ""

/-- Embedding of AccessKey.ValidUntil: the source line is
(a.ExpiryDate != time.Time\x7b\x7d) && (a.ExpiryDate.Sub(now) > in). -/
def AccessKey.validUntil (a : AccessKey) (now : Int) (within : Int) : Bool :=
  (a.expiryDate != 0) && (a.expiryDate - now > within)

/-! ## Requests and headers (net/http, restricted to what the code uses) -/

/-- The parts of a parsed net/url URL the code reads or writes. -/
structure URL where
  scheme : String
  host : String
  path : String
  query : String
deriving DecidableEq

/-- Embedding of a net/http Request: method, URL, an optional body (its byte
content; a fresh readable stream over those bytes in Go) and the header as an
ordered list of (name, value) pairs. -/
structure Request where
  method : String
  url : URL
  body : Option (List Nat)
  headers : List (String × String)
deriving DecidableEq

/-- Embedding of Header.Add: appends the value to the values of the name. -/
def headerAdd (r : Request) (n v : String) : Request :=
  { r with headers := r.headers ++ [(n, v)] }

/-- Embedding of Header.Get: the first value of the name, empty if absent. -/
def headerGet (r : Request) (n : String) : String :=
  (r.headers.lookup n).getD ""

/-- Number of values a header name holds. -/
def headerCount (n : String) (hs : List (String × String)) : Nat :=
  (hs.filter (fun p => p.1 == n)).length

/-! ## The signer (sign.go: APISigner.Sign) -/

/-- The fixed content type RequiredContentType of sign.go. -/
def RequiredContentType : String := "application/json;charset=utf-8"

/-- The errors of sign.go (ErrNoAccessKey, ErrNoRequest, ErrInvalidAccessKey,
ErrExpiredAccessKey, ErrRequestInvalidURL). -/
inductive SignErr
  | noAccessKey
  | noRequest
  | invalidAccessKey
  | expiredAccessKey
  | requestInvalidURL
deriving DecidableEq, Fintype

/-- One minute, the signing horizon time.Minute passed to ValidUntil. -/
def minuteSeconds : Int := 60

/-- The canonical string ("fingerprint") Sign joins from the slice ss: method,
newline, then for a request with a body the hex MD5 of the body, newline, the
required content type, newline, and for a body-less request two newlines; then
the timestamp, newline, and the URL path. -/
def fingerprintOf (r : Request) (utcStr : String) : String :=
  match r.body with
  | some b =>
    r.method ++ "\n" ++ hexEncode (md5 b) ++ "\n" ++ RequiredContentType ++ "\n" ++
      utcStr ++ "\n" ++ r.url.path
  | none => r.method ++ "\n" ++ "\n\n" ++ utcStr ++ "\n" ++ r.url.path

/-- The success path of APISigner.Sign on a non-nil request that passed the
guards: read and restore the body, HMAC the fingerprint with the secret, and
add the Authorization, X-Els-Date and Content-Type headers. -/
def signBody (k : AccessKey) (r : Request) (now : Int) : Request :=
  let utcStr := rfc3339UTC now
  let hStr := base64Encode
    (hmacSha256 (strBytes k.secretAccessKey) (strBytes (fingerprintOf r utcStr)))
  let auth := "ELS " ++ k.id ++ ":" ++ hStr
  let r1 := match r.body with
    | some b => { r with body := some b }
    | none => r
  headerAdd (headerAdd (headerAdd r1 "Authorization" auth) "X-Els-Date" utcStr)
    "Content-Type" RequiredContentType

/-- Embedding of APISigner.Sign for a signer holding access key k. The request
argument is optional (nil in Go); the result is the request as the call leaves
it together with the returned error, mirroring in-place mutation. -/
def sign (k : AccessKey) (ro : Option Request) (now : Int) :
    Option Request × Option SignErr :=
  match ro with
  | none => (none, some SignErr.noRequest)
  | some r =>
    if !(hasPfx r.url.path "/1.0/") then (some r, some SignErr.requestInvalidURL)
    else if !(k.validUntil now minuteSeconds) then (some r, some SignErr.expiredAccessKey)
    else (some (signBody k r now), none)

/-! ## The handler (handler.go: APIHandler, CreateAccessKey) -/

/-- Constant DefaultAPIScheme. -/
def DefaultAPIScheme : String := "https"

/-- Constant DefaultAPIDomain. -/
def DefaultAPIDomain : String := "api.elasticlicensing.com"

/-- Constant DefaultAPIVersion. -/
def DefaultAPIVersion : String := "1.0"

/-- Embedding of els.APIHandler (the http.Client is left abstract). -/
structure APIHandler where
  scheme : String
  domain : String
  version : String
deriving DecidableEq

/-- Embedding of NewAPIHandler: the default scheme, domain and version. -/
def NewAPIHandler : APIHandler :=
  { scheme := DefaultAPIScheme, domain := DefaultAPIDomain, version := DefaultAPIVersion }

/-- Embedding of APIHandler.urlPrefix. -/
def APIHandler.urlPfx (h : APIHandler) : String :=
  h.scheme ++ "://" ++ h.domain ++ "/" ++ h.version

/-- The outgoing request CreateAccessKey builds before the exchange: a POST to
the accessKeys route carrying HTTP basic-auth credentials. SetBasicAuth is
kept as the (user, password) pair it transmits. -/
structure CreateKeyRequest where
  method : String
  url : String
  basicAuthUser : String
  basicAuthPassword : String
deriving DecidableEq

/-- Embedding of the request-construction half of APIHandler.CreateAccessKey:
the url, and the basic-auth credentials after the pre-hash step (if
pwPrehashed is false the password is replaced by the hex SHA-256 of itself
before SetBasicAuth). -/
def APIHandler.createAccessKeyRequest (h : APIHandler) (emailAddress password : String)
    (pwPrehashed : Bool) (expiryDays : Nat) : CreateKeyRequest :=
  let url := h.urlPfx ++ "/users/" ++ emailAddress ++
    "/accessKeys?expires=1&numDaysTillExpiry=" ++ toString expiryDays
  let password1 :=
    if !pwPrehashed then hexEncode (sha256 (strBytes password)) else password
  { method := "POST", url := url,
    basicAuthUser := emailAddress, basicAuthPassword := password1 }

/-! ## The dispatcher (api_caller.go: EDAPICaller) -/

/-- Embedding of a golang.org/x/net context: the background context, a context
derived from a parent with a timeout, or an arbitrary caller-supplied one. -/
inductive GoContext
  | background
  | withTimeout (parent : GoContext) (timeout : Int)
  | custom (id : Nat)
deriving DecidableEq

/-- How the HTTP exchange of one call turns out: the server's response, or the
context's deadline elapsing first. -/
inductive ExchangeOutcome
  | completed (statusCode : Nat) (body : List Nat)
  | deadlineElapsed
deriving DecidableEq

/-- The errors EDAPICaller.Do returns: a signing error propagated from the
signer, or the context's cancellation error context.DeadlineExceeded. -/
inductive DoError
  | signFailed (e : SignErr)
  | ctxDeadlineExceeded
deriving DecidableEq

/-- An HTTP response as the code consumes it. -/
structure HTTPResponse where
  statusCode : Nat
  body : List Nat
deriving DecidableEq

/-- Modelled from the spec: ctxhttp.Do (package golang.org/x/net/context/ctxhttp,
not part of this repository) executes the request and honours cancellation; if
the context deadline elapses before the exchange completes, the call returns
the context's own cancellation error rather than a generic network error, and
otherwise it returns the response. -/
def ctxhttpDo (ctx : GoContext) (r : Request) (outcome : ExchangeOutcome) :
    Option HTTPResponse × Option DoError :=
  match ctx, r, outcome with
  | _, _, ExchangeOutcome.completed st b => (some ⟨st, b⟩, none)
  | _, _, ExchangeOutcome.deadlineElapsed => (none, some DoError.ctxDeadlineExceeded)

/-- Embedding of els.EDAPICaller: the embedded APIHandler, the time provider's
current reading, the last-timeout record (0, the zero time, when none yet) and
the default request timeout. The RWMutex is modelled by sequential state
passing. -/
structure EDAPICaller where
  handler : APIHandler
  tpNow : Int
  lastTimeout : Int
  requestTimeout : Int
deriving DecidableEq

/-- Embedding of NewEDAPICaller: a fresh handler, the given time provider and
timeout, the version overridden only when nonempty and not the default, and
lastTimeout left at its zero value. -/
def NewEDAPICaller (tpNow : Int) (timeout : Int) (apiVersion : String) : EDAPICaller :=
  let h := NewAPIHandler
  let h := if apiVersion != "" && apiVersion != DefaultAPIVersion then
      { h with version := apiVersion } else h
  { handler := h, tpNow := tpNow, lastTimeout := 0, requestTimeout := timeout }

/-- Embedding of EDAPICaller.LastTimeout: reads the record under the read
lock. -/
def EDAPICaller.LastTimeout (a : EDAPICaller) : Int := a.lastTimeout

/-- Everything one call to EDAPICaller.Do leaves behind: the context the
exchange ran under, the request as the call left it, the caller's state, and
the returned response and error. -/
structure DoResult where
  usedCtx : GoContext
  finalRequest : Request
  caller : EDAPICaller
  response : Option HTTPResponse
  err : Option DoError
deriving DecidableEq

/-- The exchange step of EDAPICaller.Do (lines 163 to 174): run ctxhttp.Do and
on any error record the time provider's now as lastTimeout under the write
lock. -/
def EDAPICaller.doExchange (a : EDAPICaller) (usedCtx : GoContext) (r : Request)
    (outcome : ExchangeOutcome) : DoResult :=
  match ctxhttpDo usedCtx r outcome with
  | (resp, some e) =>
    { usedCtx := usedCtx, finalRequest := r,
      caller := { a with lastTimeout := a.tpNow }, response := resp, err := some e }
  | (resp, none) =>
    { usedCtx := usedCtx, finalRequest := r, caller := a, response := resp, err := none }

/-- Embedding of EDAPICaller.Do: synthesize a context when none is supplied,
complete the URL for ELS API requests, sign when a signer is supplied
(propagating its error without an exchange), then execute the exchange. The
outcome argument stands for what the network does on this call. -/
def EDAPICaller.Do (a : EDAPICaller) (ctx : Option GoContext) (r : Request)
    (signer : Option AccessKey) (isELSAPI : Bool) (outcome : ExchangeOutcome) : DoResult :=
  let usedCtx := match ctx with
    | none => GoContext.withTimeout GoContext.background a.requestTimeout
    | some c => c
  let r1 := if isELSAPI then
      { r with url := { scheme := a.handler.scheme, host := a.handler.domain,
                        path := "/" ++ a.handler.version ++ r.url.path,
                        query := r.url.query } }
    else r
  match signer with
  | some k =>
    match sign k (some r1) a.tpNow with
    | (ro, some e) =>
      { usedCtx := usedCtx, finalRequest := ro.getD r1, caller := a,
        response := none, err := some (DoError.signFailed e) }
    | (ro, none) => EDAPICaller.doExchange a usedCtx (ro.getD r1) outcome
  | none => EDAPICaller.doExchange a usedCtx r1 outcome

/-! ## Concrete inputs used by the scenario theorems -/

/-- The instant 2015-01-01T00:00:00Z in seconds since 0001-01-01T00:00:00Z. -/
def nowScenario : Int := 63555667200

/-- The scenario body, the bytes of the JSON object with title ATitle. -/
def bodyScenario : List Nat := strBytes "\x7b\x22title\x22:\x22ATitle\x22\x7d"

/-- The scenario access key: id AK, secret SAK, expiry one hour after the
scenario instant. -/
def keyScenario : AccessKey :=
  { id := "AK", secretAccessKey := "SAK", expiryDate := nowScenario + 3600,
    email := "user@example.com" }

/-- The scenario request: a POST of the scenario body to the path /1.0/path. -/
def reqScenario : Request :=
  { method := "POST",
    url := { scheme := "https", host := "api.elasticlicensing.com",
             path := "/1.0/path", query := "" },
    body := some bodyScenario, headers := [] }

/-- A body-less request whose path carries the version, for the body-less
signing scenarios. -/
def reqNoBody : Request :=
  { method := "GET",
    url := { scheme := "https", host := "api.elasticlicensing.com",
             path := "/1.0/path", query := "" },
    body := none, headers := [] }

/-- The scenario request after one successful Sign. -/
def reqSignedOnce : Request :=
  (sign keyScenario (some reqScenario) nowScenario).1.getD reqScenario

/-- The scenario request after a second successful Sign. -/
def reqSignedTwice : Request :=
  (sign keyScenario (some reqSignedOnce) nowScenario).1.getD reqSignedOnce

/-- A dispatcher with the default handler, reading 1000 from its time provider,
with a 5 second default timeout. -/
def callerScenario : EDAPICaller := NewEDAPICaller 1000 5 ""

set_option maxRecDepth 40000
set_option maxHeartbeats 4000000

/-! ## Fidelity of the embedded primitives: published test vectors -/

/-- RFC 1321 test vector: the MD5 digest of abc. -/
theorem md5_vector_abc :
    hexEncode (md5 (strBytes "abc")) = "900150983cd24fb0d6963f7d28e17f72" := by
  decide

/-- RFC 1321 test vector: the MD5 digest of the empty message. -/
theorem md5_vector_empty :
    hexEncode (md5 []) = "d41d8cd98f00b204e9800998ecf8427e" := by
  decide

/-- FIPS 180-4 test vector: the SHA-256 digest of abc. -/
theorem sha256_vector_abc :
    hexEncode (sha256 (strBytes "abc")) =
      "ba7816bf8f01cfea414140de5dae2223b00361a396177a9cb410ff61f20015ad" := by
  decide

/-- SHA-256 digest of the empty message. -/
theorem sha256_vector_empty :
    hexEncode (sha256 []) =
      "e3b0c44298fc1c149afbf4c8996fb92427ae41e4649b934ca495991b7852b855" := by
  decide

/-- RFC 4231 test case 2: HMAC-SHA256 with key Jefe. -/
theorem hmacSha256_vector_jefe :
    hexEncode (hmacSha256 (strBytes "Jefe") (strBytes "what do ya want for nothing?")) =
      "5bdcc146bf60754e6a042426089575c75a003f089d2739839dec58b964ec3843" := by
  decide

/-- The RFC3339 UTC rendering of the scenario instant. -/
theorem rfc3339_scenario :
    rfc3339UTC nowScenario = "2015-01-01T00:00:00Z" := by
  decide

/-! ## Helper lemmas about the signer -/

/-- Unfolding of sign on a non-nil request. -/
theorem sign_some_eq (k : AccessKey) (r : Request) (now : Int) :
    sign k (some r) now =
      if !(hasPfx r.url.path "/1.0/") then (some r, some SignErr.requestInvalidURL)
      else if !(k.validUntil now minuteSeconds) then
        (some r, some SignErr.expiredAccessKey)
      else (some (signBody k r now), none) := rfl

/-- The headers a successful signing pass appends. -/
theorem signBody_headers (k : AccessKey) (r : Request) (now : Int) :
    (signBody k r now).headers = r.headers ++
      [("Authorization", "ELS " ++ k.id ++ ":" ++ base64Encode
          (hmacSha256 (strBytes k.secretAccessKey)
            (strBytes (fingerprintOf r (rfc3339UTC now))))),
       ("X-Els-Date", rfc3339UTC now),
       ("Content-Type", RequiredContentType)] := by
  cases hb : r.body <;> simp [signBody, headerAdd, hb]

/-- A signing pass leaves the body as it was. -/
theorem signBody_body (k : AccessKey) (r : Request) (now : Int) :
    (signBody k r now).body = r.body := by
  cases hb : r.body <;> simp [signBody, headerAdd, hb]

/-- A signing pass leaves the method as it was. -/
theorem signBody_method (k : AccessKey) (r : Request) (now : Int) :
    (signBody k r now).method = r.method := by
  cases hb : r.body <;> simp [signBody, headerAdd, hb]

/-- A signing pass leaves the URL as it was. -/
theorem signBody_url (k : AccessKey) (r : Request) (now : Int) :
    (signBody k r now).url = r.url := by
  cases hb : r.body <;> simp [signBody, headerAdd, hb]

/-- Characterization of a successful sign call. -/
theorem sign_ok_iff (k : AccessKey) (r r1 : Request) (now : Int) :
    sign k (some r) now = (some r1, none) ↔
      hasPfx r.url.path "/1.0/" = true ∧
        k.validUntil now minuteSeconds = true ∧ r1 = signBody k r now := by
  rw [sign_some_eq]
  by_cases h1 : hasPfx r.url.path "/1.0/" <;>
    by_cases h2 : k.validUntil now minuteSeconds <;>
      simp [h1, h2, eq_comm]

/-- The request sign returns alongside an error or a signed request always has
the URL and method of its input. -/
theorem sign_fst_shape (k : AccessKey) (r : Request) (now : Int) :
    ∃ r2, (sign k (some r) now).1 = some r2 ∧ r2.url = r.url ∧
      r2.method = r.method := by
  rw [sign_some_eq]
  by_cases h1 : hasPfx r.url.path "/1.0/" <;>
    by_cases h2 : k.validUntil now minuteSeconds <;>
      simp [h1, h2, signBody_url, signBody_method]

/-! ## Helper lemmas about the dispatcher -/

/-- The exchange step hands back the request it was given. -/
theorem doExchange_request (a : EDAPICaller) (c : GoContext) (r : Request)
    (o : ExchangeOutcome) :
    (EDAPICaller.doExchange a c r o).finalRequest = r := by
  cases o <;> rfl

/-- The exchange step runs under the context it was given. -/
theorem doExchange_ctx (a : EDAPICaller) (c : GoContext) (r : Request)
    (o : ExchangeOutcome) :
    (EDAPICaller.doExchange a c r o).usedCtx = c := by
  cases o <;> rfl

/-- A deadline-elapsing exchange returns the context's cancellation error. -/
theorem doExchange_err_deadline (a : EDAPICaller) (c : GoContext) (r : Request) :
    (EDAPICaller.doExchange a c r ExchangeOutcome.deadlineElapsed).err =
      some DoError.ctxDeadlineExceeded := rfl

/-- A deadline-elapsing exchange records the time source's now. -/
theorem doExchange_caller_deadline (a : EDAPICaller) (c : GoContext) (r : Request) :
    (EDAPICaller.doExchange a c r ExchangeOutcome.deadlineElapsed).caller =
      { a with lastTimeout := a.tpNow } := rfl

/-- The context a Do call runs under: the caller's verbatim, or a default
derived from the background context when none is supplied. -/
theorem do_usedCtx (a : EDAPICaller) (ctx : Option GoContext) (r : Request)
    (signer : Option AccessKey) (isELSAPI : Bool) (outcome : ExchangeOutcome) :
    (EDAPICaller.Do a ctx r signer isELSAPI outcome).usedCtx =
      (match ctx with
       | none => GoContext.withTimeout GoContext.background a.requestTimeout
       | some c => c) := by
  cases signer with
  | none => simp [EDAPICaller.Do, doExchange_ctx]
  | some k =>
    rcases hsig : (sign k (some (if isELSAPI then
        { r with url := { scheme := a.handler.scheme, host := a.handler.domain,
                          path := "/" ++ a.handler.version ++ r.url.path,
                          query := r.url.query } }
      else r)) a.tpNow) with ⟨ro, oe⟩
    cases oe with
    | some e => simp [EDAPICaller.Do, hsig]
    | none => simp [EDAPICaller.Do, hsig, doExchange_ctx]

/-- The URL of the request a Do call leaves behind: rewritten against the
handler when isELSAPI, untouched otherwise; signing never changes it. -/
theorem do_finalRequest_url (a : EDAPICaller) (ctx : Option GoContext) (r : Request)
    (signer : Option AccessKey) (isELSAPI : Bool) (outcome : ExchangeOutcome) :
    (EDAPICaller.Do a ctx r signer isELSAPI outcome).finalRequest.url =
      (if isELSAPI then
        { scheme := a.handler.scheme, host := a.handler.domain,
          path := "/" ++ a.handler.version ++ r.url.path, query := r.url.query }
      else r.url) := by
  cases signer with
  | none =>
    cases isELSAPI <;> simp [EDAPICaller.Do, doExchange_request]
  | some k =>
    obtain ⟨r2, hfst, hurl, -⟩ := sign_fst_shape k (if isELSAPI then
        { r with url := { scheme := a.handler.scheme, host := a.handler.domain,
                          path := "/" ++ a.handler.version ++ r.url.path,
                          query := r.url.query } }
      else r) a.tpNow
    rcases hsig : (sign k (some (if isELSAPI then
        { r with url := { scheme := a.handler.scheme, host := a.handler.domain,
                          path := "/" ++ a.handler.version ++ r.url.path,
                          query := r.url.query } }
      else r)) a.tpNow) with ⟨ro, oe⟩
    rw [hsig] at hfst
    have hro : ro = some r2 := hfst
    subst hro
    cases oe with
    | some e =>
      cases isELSAPI <;> simp_all [EDAPICaller.Do, hsig]
    | none =>
      cases isELSAPI <;> simp_all [EDAPICaller.Do, hsig, doExchange_request]

/-! ## The claims -/

/-- C1: the claim reads validUntil(now, horizon) as true whenever the expiry is
unset (the zero time); the code evaluated at such a credential returns false
for every now and every horizon, contradicting the package's own test (the key
never expires: returns true) and the changelog entry Fixed number 3:
AccessKey.ValidUntil() does not work with non-expiring keys. -/
theorem validUntil_unset_expiry_false (now within : Int) :
    AccessKey.validUntil
      { id := "AK", secretAccessKey := "SAK", expiryDate := 0,
        email := "user@example.com" } now within = false := by
  simp [AccessKey.validUntil]

/-- Concrete evaluation of ValidUntil at the failing input: an access key with
unset expiry, the instant 100 and the one-minute horizon. -/
theorem validUntil_unset_expiry_concrete :
    AccessKey.validUntil
      { id := "AK", secretAccessKey := "SAK", expiryDate := 0,
        email := "user@example.com" } 100 60 = false := by
  decide

/-- C2: signing the scenario request (POST /1.0/path with the ATitle JSON body,
key AK/SAK expiring one hour later) at 2015-01-01T00:00:00Z succeeds, sets the
Authorization header to ELS AK: followed by the standard base64 of the
HMAC-SHA256, keyed by SAK, of the canonical string METHOD, newline, hex md5 of
the body, newline, the required content type, newline, the RFC3339 UTC
timestamp, newline, the URL path, and sets X-Els-Date to that timestamp. -/
theorem sign_scenario_authorization :
    (sign keyScenario (some reqScenario) nowScenario).2 = none ∧
    headerGet ((sign keyScenario (some reqScenario) nowScenario).1.getD reqScenario)
        "Authorization" =
      "ELS AK:" ++ base64Encode (hmacSha256 (strBytes "SAK")
        (strBytes ("POST" ++ "\n" ++ hexEncode (md5 bodyScenario) ++ "\n" ++
          "application/json;charset=utf-8" ++ "\n" ++ "2015-01-01T00:00:00Z" ++
          "\n" ++ "/1.0/path"))) ∧
    headerGet ((sign keyScenario (some reqScenario) nowScenario).1.getD reqScenario)
        "X-Els-Date" = "2015-01-01T00:00:00Z" := by
  decide

/-- C3 counterexample: a successfully signed body-less request does receive a
Content-Type header (the code adds it unconditionally), against the claim that
no Content-Type header is added when there is no body. -/
theorem sign_no_body_adds_content_type :
    reqNoBody.body = none ∧
    (sign keyScenario (some reqNoBody) nowScenario).2 = none ∧
    headerGet ((sign keyScenario (some reqNoBody) nowScenario).1.getD reqNoBody)
      "Content-Type" = RequiredContentType := by
  decide

/-- C3 (amended): every request Sign accepts gets the Content-Type header with
the fixed required value, whether or not it carries a body; only the canonical
string distinguishes the two cases. -/
theorem sign_always_adds_content_type (k : AccessKey) (r r1 : Request) (now : Int)
    (h : sign k (some r) now = (some r1, none)) :
    ("Content-Type", RequiredContentType) ∈ r1.headers := by
  obtain ⟨-, -, rfl⟩ := (sign_ok_iff k r r1 now).mp h
  rw [signBody_headers]
  simp

/-- C3 witness: the amended theorem applied to the body-less scenario. -/
theorem sign_always_adds_content_type_witness :
    ("Content-Type", RequiredContentType) ∈
      ((sign keyScenario (some reqNoBody) nowScenario).1.getD reqNoBody).headers :=
  sign_always_adds_content_type keyScenario reqNoBody
    ((sign keyScenario (some reqNoBody) nowScenario).1.getD reqNoBody)
    nowScenario rfl

/-- C4: a successful Sign leaves the body bytes, the method and the URL of the
request untouched and only appends the three signing headers; reading the body
after signing yields byte-for-byte the content it had before. -/
theorem sign_preserves_body (k : AccessKey) (r r1 : Request) (now : Int)
    (h : sign k (some r) now = (some r1, none)) :
    r1.body = r.body ∧ r1.method = r.method ∧ r1.url = r.url ∧
      ∃ a d, r1.headers = r.headers ++
        [("Authorization", a), ("X-Els-Date", d),
         ("Content-Type", RequiredContentType)] := by
  obtain ⟨-, -, rfl⟩ := (sign_ok_iff k r r1 now).mp h
  exact ⟨signBody_body k r now, signBody_method k r now, signBody_url k r now,
    _, _, signBody_headers k r now⟩

/-- C4 witness: the theorem applied to the scenario request with a body. -/
theorem sign_preserves_body_witness :
    reqSignedOnce.body = reqScenario.body ∧
      reqSignedOnce.method = reqScenario.method ∧
      reqSignedOnce.url = reqScenario.url ∧
      ∃ a d, reqSignedOnce.headers = reqScenario.headers ++
        [("Authorization", a), ("X-Els-Date", d),
         ("Content-Type", RequiredContentType)] :=
  sign_preserves_body keyScenario reqScenario reqSignedOnce nowScenario rfl

/-- C5: Sign fails with the no-request error exactly on a nil request, with the
invalid-URL error exactly when the path lacks the /1.0/ version prefix, with
the expired-key error exactly when the held key does not satisfy
validUntil(now, one minute) (in particular whenever the expiry equals now),
succeeds otherwise, and leaves the request unmodified on every failure. -/
theorem sign_error_cases (k : AccessKey) (ro : Option Request) (now : Int) :
    ((sign k ro now).2 = some SignErr.noRequest ↔ ro = none) ∧
    ((sign k ro now).2 = some SignErr.requestInvalidURL ↔
      ∃ r, ro = some r ∧ hasPfx r.url.path "/1.0/" = false) ∧
    ((sign k ro now).2 = some SignErr.expiredAccessKey ↔
      ∃ r, ro = some r ∧ hasPfx r.url.path "/1.0/" = true ∧
        k.validUntil now minuteSeconds = false) ∧
    ((sign k ro now).2 = none ↔
      ∃ r, ro = some r ∧ hasPfx r.url.path "/1.0/" = true ∧
        k.validUntil now minuteSeconds = true) ∧
    (k.expiryDate = now → k.validUntil now minuteSeconds = false) ∧
    ((sign k ro now).2 ≠ none → (sign k ro now).1 = ro) := by
  have hexp : k.expiryDate = now → k.validUntil now minuteSeconds = false := by
    intro he
    simp [AccessKey.validUntil, he, minuteSeconds]
  refine ⟨?_, ?_, ?_, ?_, hexp, ?_⟩ <;>
  cases ro with
  | none => simp [sign]
  | some r =>
    rw [sign_some_eq]
    by_cases h1 : hasPfx r.url.path "/1.0/" <;>
      by_cases h2 : k.validUntil now minuteSeconds <;>
        simp [h1, h2]

/-- C6: when the context deadline elapses before the HTTP exchange completes
(and signing did not already fail), Do returns the context's own cancellation
error and records the time source's now as the last timeout; LastTimeout then
reads that instant, and reads the zero instant on a fresh dispatcher. -/
theorem do_deadline_returns_ctx_error (a : EDAPICaller) (ctx : Option GoContext)
    (r : Request) (signer : Option AccessKey) (isELSAPI : Bool)
    (hs : ∀ e, (EDAPICaller.Do a ctx r signer isELSAPI
      ExchangeOutcome.deadlineElapsed).err ≠ some (DoError.signFailed e)) :
    (EDAPICaller.Do a ctx r signer isELSAPI ExchangeOutcome.deadlineElapsed).err =
        some DoError.ctxDeadlineExceeded ∧
      (EDAPICaller.Do a ctx r signer isELSAPI
        ExchangeOutcome.deadlineElapsed).caller.LastTimeout = a.tpNow ∧
      (∀ tp t v, (NewEDAPICaller tp t v).LastTimeout = 0) := by
  have key : (EDAPICaller.Do a ctx r signer isELSAPI
      ExchangeOutcome.deadlineElapsed).err = some DoError.ctxDeadlineExceeded ∧
      (EDAPICaller.Do a ctx r signer isELSAPI
        ExchangeOutcome.deadlineElapsed).caller.lastTimeout = a.tpNow := by
    cases signer with
    | none =>
      simp [EDAPICaller.Do, doExchange_err_deadline, doExchange_caller_deadline]
    | some k =>
      rcases hsig : (sign k (some (if isELSAPI then
          { r with url := { scheme := a.handler.scheme, host := a.handler.domain,
                            path := "/" ++ a.handler.version ++ r.url.path,
                            query := r.url.query } }
        else r)) a.tpNow) with ⟨ro, oe⟩
      cases oe with
      | some e =>
        exact absurd (by simp [EDAPICaller.Do, hsig]) (hs e)
      | none =>
        simp [EDAPICaller.Do, hsig, doExchange_err_deadline, doExchange_caller_deadline]
  exact ⟨key.1, key.2,
    fun tp t v => by simp [NewEDAPICaller, EDAPICaller.LastTimeout]⟩

/-- C6 witness: a deadline-elapsing unsigned third-party call on the scenario
dispatcher. -/
theorem do_deadline_returns_ctx_error_witness :
    (EDAPICaller.Do callerScenario none reqScenario none false
        ExchangeOutcome.deadlineElapsed).err = some DoError.ctxDeadlineExceeded ∧
      (EDAPICaller.Do callerScenario none reqScenario none false
        ExchangeOutcome.deadlineElapsed).caller.LastTimeout = callerScenario.tpNow ∧
      (∀ tp t v, (NewEDAPICaller tp t v).LastTimeout = 0) :=
  do_deadline_returns_ctx_error callerScenario none reqScenario none false
    (by decide)

/-- C7: a call with no context runs the exchange under a context derived from
the background context bounded by the configured default timeout; a call with a
caller context runs it under that context verbatim, with no further timeout. -/
theorem do_context_verbatim (a : EDAPICaller) (r : Request)
    (signer : Option AccessKey) (isELSAPI : Bool) (outcome : ExchangeOutcome) :
    ((EDAPICaller.Do a none r signer isELSAPI outcome).usedCtx =
      GoContext.withTimeout GoContext.background a.requestTimeout) ∧
    ∀ c, (EDAPICaller.Do a (some c) r signer isELSAPI outcome).usedCtx = c := by
  exact ⟨do_usedCtx a none r signer isELSAPI outcome,
    fun c => do_usedCtx a (some c) r signer isELSAPI outcome⟩

/-- C8: with isELSAPI true, Do rewrites the request's scheme and host to the
configured API scheme and host and prepends the version to the path while
keeping the relative path and the query; with isELSAPI false, the URL is left
exactly as the caller constructed it. -/
theorem do_url_completion (a : EDAPICaller) (ctx : Option GoContext) (r : Request)
    (signer : Option AccessKey) (outcome : ExchangeOutcome) :
    ((EDAPICaller.Do a ctx r signer true outcome).finalRequest.url =
      { scheme := a.handler.scheme, host := a.handler.domain,
        path := "/" ++ a.handler.version ++ r.url.path, query := r.url.query }) ∧
    ((EDAPICaller.Do a ctx r signer false outcome).finalRequest.url = r.url) := by
  constructor
  · simp [do_finalRequest_url]
  · simp [do_finalRequest_url]

/-- C9: CreateAccessKey with passwordPrehashed false transmits, as the basic
auth password next to the email, the hex SHA-256 of the supplied password and
never the plaintext (the request it builds coincides with the request built
from the pre-hashed value); with passwordPrehashed true the supplied string is
used as-is. -/
theorem createAccessKey_password_hash (h : APIHandler)
    (emailAddress password : String) (expiryDays : Nat) :
    (h.createAccessKeyRequest emailAddress password false expiryDays =
      h.createAccessKeyRequest emailAddress
        (hexEncode (sha256 (strBytes password))) true expiryDays) ∧
    (h.createAccessKeyRequest emailAddress password false expiryDays).basicAuthPassword =
      hexEncode (sha256 (strBytes password)) ∧
    (h.createAccessKeyRequest emailAddress password true expiryDays).basicAuthPassword =
      password ∧
    (h.createAccessKeyRequest emailAddress password false expiryDays).basicAuthUser =
      emailAddress :=
  ⟨rfl, rfl, rfl, rfl⟩

/-- C10: a successful Sign appends one value to each of the Authorization,
X-Els-Date and Content-Type header lists, keeping any values already there, so
signing an already-signed request leaves two values per header. -/
theorem sign_appends_header_values (k : AccessKey) (r r1 : Request) (now : Int)
    (h : sign k (some r) now = (some r1, none)) :
    (∃ a d, r1.headers = r.headers ++
      [("Authorization", a), ("X-Els-Date", d),
       ("Content-Type", RequiredContentType)]) ∧
    headerCount "Authorization" r1.headers =
      headerCount "Authorization" r.headers + 1 ∧
    headerCount "X-Els-Date" r1.headers = headerCount "X-Els-Date" r.headers + 1 ∧
    headerCount "Content-Type" r1.headers =
      headerCount "Content-Type" r.headers + 1 := by
  obtain ⟨-, -, rfl⟩ := (sign_ok_iff k r r1 now).mp h
  rw [signBody_headers]
  refine ⟨⟨_, _, rfl⟩, ?_, ?_, ?_⟩ <;>
    simp [headerCount, List.filter_append]

/-- C10 witness: signing the already-signed scenario request appends a second
value to each of the three headers. -/
theorem sign_appends_header_values_witness :
    (∃ a d, reqSignedTwice.headers = reqSignedOnce.headers ++
      [("Authorization", a), ("X-Els-Date", d),
       ("Content-Type", RequiredContentType)]) ∧
    headerCount "Authorization" reqSignedTwice.headers =
      headerCount "Authorization" reqSignedOnce.headers + 1 ∧
    headerCount "X-Els-Date" reqSignedTwice.headers =
      headerCount "X-Els-Date" reqSignedOnce.headers + 1 ∧
    headerCount "Content-Type" reqSignedTwice.headers =
      headerCount "Content-Type" reqSignedOnce.headers + 1 :=
  sign_appends_header_values keyScenario reqSignedOnce reqSignedTwice nowScenario rfl

end Els
